import Mathlib

/-!
Shallow embedding of the X-account watcher server (`server.mjs`, `api/state.mjs`).

Conventions of the embedding:
* JavaScript strings that may be absent (`undefined`) are modelled as `String`
  with `""` standing for the falsy/absent value, matching the source's pervasive
  `x || ""` coercions.
* Values guarded by `Array.isArray` checks are modelled as `Option (List _)`,
  `none` standing for "not an array".
* The external HTTP world (clock, X API responses) is passed in explicitly as a
  `RefreshEnv`; `fetch` outcomes are `Except String _` carrying the thrown
  error message.
* SSE broadcasts are modelled as a returned list of `Event` values.
-/

namespace XWatcher

/-- JavaScript `a || b` on strings, where `""` is the only falsy string. -/
def jsOr (a b : String) : String := if a = "" then b else a

/-- JavaScript `s.trim()`: strip whitespace from both ends (modelled with
Lean's `Char.isWhitespace` class of space characters). -/
def jsTrim (s : String) : String :=
  ⟨((s.data.dropWhile Char.isWhitespace).reverse.dropWhile Char.isWhitespace).reverse⟩

/-- JavaScript `s.toLowerCase()` (ASCII case mapping, which covers the handle
alphabet `[A-Za-z0-9_]` the program compares). -/
def jsToLower (s : String) : String := ⟨s.data.map Char.toLower⟩

/-- One entry of a raw media payload's `variants` array.
`bitrate` is `Option Nat` because the source reads it as `item.bitrate || 0`. -/
structure Variant where
  content_type : String
  bitrate : Option Nat
  url : String
deriving DecidableEq

/-- The value `(v.bitrate || 0)` as used by the sort comparator in `pickBestVideoVariant`. -/
def bitrateOf (v : Variant) : Nat := v.bitrate.getD 0

/-- Stable insertion of a variant into a list sorted by descending bitrate.
The inserted element (earlier in the original array) goes before elements of
equal bitrate, matching the stable `Array.prototype.sort` with comparator
`(b.bitrate || 0) - (a.bitrate || 0)`. -/
def insertDesc (v : Variant) : List Variant → List Variant
  | [] => [v]
  | w :: ws => if bitrateOf w ≤ bitrateOf v then v :: w :: ws else w :: insertDesc v ws

/-- Stable sort by descending bitrate (model of the JS `sort` call). -/
def sortDescBitrate : List Variant → List Variant
  | [] => []
  | v :: vs => insertDesc v (sortDescBitrate vs)

/-- The filter predicate `item && item.content_type === "video/mp4" && item.url`. -/
def isUsableMp4 (item : Variant) : Bool :=
  item.content_type == "video/mp4" && item.url != ""

/-- Model of `pickBestVideoVariant(variants)` from `server.mjs` lines 182-194 /
`api/state.mjs` lines 20-32: keep `video/mp4` variants with a URL, sort by
descending bitrate, return the top URL, else `""`. `none` models a
non-array `variants` value. -/
def pickBestVideoVariant : Option (List Variant) → String
  | none => ""
  | some variants =>
    let mp4Only := variants.filter isUsableMp4
    match sortDescBitrate mp4Only with
    | [] => ""
    | best :: _ => jsOr best.url ""

/-- One raw media payload from `includes.media` (`media_key`, `type`, `url`,
`preview_image_url`, `variants`); `""` models an absent string field. -/
structure MediaRaw where
  media_key : String
  type : String
  url : String
  preview_image_url : String
  variants : Option (List Variant)
deriving DecidableEq

/-- The serialized media shape `{ type, displayUrl, openUrl }`. -/
structure MediaOut where
  type : String
  displayUrl : String
  openUrl : String
deriving DecidableEq

/-- Model of `serializeTweetMedia(media)` from `server.mjs` lines 196-220: `photo`
media display the direct URL, all other kinds prefer the preview image URL;
entries without a display URL are dropped (`null`); `openUrl` prefers the
direct URL, then the best mp4 variant, then the display URL. -/
def serializeTweetMedia : Option MediaRaw → Option MediaOut
  | none => none
  | some media =>
    let type := jsOr media.type ""
    let directUrl := jsOr media.url ""
    let previewImageUrl := jsOr media.preview_image_url ""
    let videoUrl := pickBestVideoVariant media.variants
    let displayUrl := if type = "photo" then directUrl else jsOr previewImageUrl directUrl
    if displayUrl = "" then none
    else some ⟨type, displayUrl, jsOr directUrl (jsOr videoUrl displayUrl)⟩

/-- One entry of `tweet.entities.urls`. -/
structure UrlItem where
  expanded_url : String
  url : String
deriving DecidableEq

/-- A raw tweet payload. `media_keys` flattens the optional chain
`tweet?.attachments?.media_keys` (`none` when missing or not an array);
`entity_urls` likewise flattens `tweet?.entities?.urls`. -/
structure Tweet where
  id : String
  text : String
  created_at : String
  media_keys : Option (List String)
  entity_urls : Option (List UrlItem)
deriving DecidableEq

/-- After the matched extension, the regex `(\?|$)` accepts end of string or
a literal question mark. -/
def endsOrQuery : List Char → Bool
  | [] => true
  | '?' :: _ => true
  | _ => false

/-- Match a literal character sequence at the head of `cs`, returning the rest. -/
def dropLit : List Char → List Char → Option (List Char)
  | [], rest => some rest
  | p :: ps, c :: cs => if c = p then dropLit ps cs else none
  | _ :: _, [] => none

/-- After a `'.'`, try each alternative of `(png|jpe?g|gif|webp)` followed by
`(\?|$)`. -/
def matchesImageExt (cs : List Char) : Bool :=
  ["png", "jpg", "jpeg", "gif", "webp"].any fun ext =>
    match dropLit ext.data cs with
    | some rest => endsOrQuery rest
    | none => false

/-- Scan for an occurrence of the image-extension pattern anywhere in the
character list (the regex is unanchored). -/
def hasImageMatch : List Char → Bool
  | [] => false
  | c :: rest => (c = '.' && matchesImageExt rest) || hasImageMatch rest

/-- Model of `imageRegex.test(s)` for `/\.(png|jpe?g|gif|webp)(\?|$)/i`; the `i` flag is
modelled by lowercasing the subject (the pattern's letters are lowercase ASCII). -/
def imageRegexTest (s : String) : Bool := hasImageMatch (jsToLower s).data

/-- The body of the `for` loop of `extractImageLinksFromEntities`: collect, in
order, each entity URL (`expanded_url || url || ""`) that is non-empty and
matches the image-extension regex. -/
def extractLoop : List UrlItem → List String
  | [] => []
  | urlItem :: rest =>
    let expanded := jsOr urlItem.expanded_url (jsOr urlItem.url "")
    if expanded != "" && imageRegexTest expanded then expanded :: extractLoop rest
    else extractLoop rest

/-- Model of `extractImageLinksFromEntities(tweet)` from `server.mjs` lines 222-237. -/
def extractImageLinksFromEntities (tweet : Tweet) : List String :=
  match tweet.entity_urls with
  | none => []
  | some urls => extractLoop urls

/-- The normalized Content item `{ id, text, createdAt, url, media }`. -/
structure ContentItem where
  id : String
  text : String
  createdAt : String
  url : String
  media : List MediaOut
deriving DecidableEq

/-- Model of `toTweetUrl` from `server.mjs` lines 178-180. -/
def toTweetUrl (username tweetId : String) : String :=
  "https://x.com/" ++ username ++ "/status/" ++ tweetId

/-- The structured-media branch of `serializeTweet`: map each attachment media
key through the lookup table and `serializeTweetMedia`, keeping the non-null
results in attachment order (`.map(...).filter(Boolean)`). -/
def structuredMedia (tweet : Tweet) (mediaByKey : String → Option MediaRaw) :
    List MediaOut :=
  match tweet.media_keys with
  | some mediaKeys => (mediaKeys.map fun key => serializeTweetMedia (mediaByKey key)).filterMap id
  | none => []

/-- Model of `serializeTweet(account, tweet, mediaByKey)` from `server.mjs` lines
239-265: structured media wins; only when it is empty are image links from the
tweet's entities emitted as `external_image` media. -/
def serializeTweet (username : String) (tweet : Tweet)
    (mediaByKey : String → Option MediaRaw) : ContentItem :=
  let media0 := structuredMedia tweet mediaByKey
  let media :=
    if media0.isEmpty then
      (extractImageLinksFromEntities tweet).map fun link =>
        (⟨"external_image", link, link⟩ : MediaOut)
    else media0
  { id := tweet.id
    text := jsOr tweet.text ""
    createdAt := jsOr tweet.created_at ""
    url := toTweetUrl username tweet.id
    media := media }

/-- The mutable per-account record kept in the process-wide `accounts` array
(`server.mjs` lines 121-134). -/
structure Account where
  name : String
  username : String
  usernameKey : String
  userId : String
  recentTweets : List ContentItem
  latestTweetId : String
  latestTweetText : String
  latestTweetCreatedAt : String
  latestTweetUrl : String
  error : String
  initialized : Bool
  lastCheckedAt : String
deriving DecidableEq

/-- The serialized account shape produced by `serializeAccount` (`server.mjs`
lines 287-299); it omits the internal `usernameKey`, `userId`, `initialized`. -/
structure SerializedAccount where
  name : String
  username : String
  recentTweets : List ContentItem
  latestTweetId : String
  latestTweetText : String
  latestTweetCreatedAt : String
  latestTweetUrl : String
  error : String
  lastCheckedAt : String
deriving DecidableEq

/-- Model of `serializeAccount(account)` from `server.mjs` lines 287-299. -/
def serializeAccount (account : Account) : SerializedAccount :=
  { name := account.name
    username := account.username
    recentTweets := account.recentTweets
    latestTweetId := account.latestTweetId
    latestTweetText := account.latestTweetText
    latestTweetCreatedAt := account.latestTweetCreatedAt
    latestTweetUrl := account.latestTweetUrl
    error := account.error
    lastCheckedAt := account.lastCheckedAt }

/-- SSE broadcasts observable by clients: `new_post` per-account change events
and the per-cycle full-state `state` snapshot. -/
inductive Event where
  | newPost (account : SerializedAccount) (detectedAt : String)
  | stateSnapshot (serverTime : String) (lastPollCompletedAt : String)
      (accounts : List SerializedAccount)
deriving DecidableEq

/-- The raw body of a successful tweets-fetch response:
`data` models `data?.data` (`none` when missing or not an array) and
`includesMedia` models `data?.includes?.media` likewise. -/
structure FetchResponse where
  data : Option (List Tweet)
  includesMedia : Option (List MediaRaw)
deriving DecidableEq

/-- Build the `mediaByKey` `Map` of `fetchRecentTweets`: later entries with the
same non-empty `media_key` overwrite earlier ones (`Map.set` semantics). -/
def buildMediaByKey (includeMedia : List MediaRaw) : String → Option MediaRaw :=
  includeMedia.foldl
    (fun acc media =>
      if media.media_key != "" then
        fun key => if key = media.media_key then some media else acc key
      else acc)
    (fun _ => none)

/-- The pure core of `fetchRecentTweets(account)` (`server.mjs` lines 267-285)
applied to an already-obtained response body: serialize each returned tweet in
order, or return `[]` when the data list is missing or empty. -/
def fetchRecentTweets (username : String) (resp : FetchResponse) : List ContentItem :=
  match resp.data with
  | none => []
  | some list =>
    if list.isEmpty then []
    else
      let includeMedia := match resp.includesMedia with | some l => l | none => []
      let mediaByKey := buildMediaByKey includeMedia
      list.map fun tweet => serializeTweet username tweet mediaByKey

/-- The configuration-missing message set when no bearer token is configured. -/
def tokenMissingMsg : String := "X_BEARER_TOKEN 환경 변수가 설정되지 않았습니다."

/-- The external world of one refresh attempt: whether a credential is
configured, the timestamps taken from the clock, and the outcomes of the two
network calls (`Except.error` carries the thrown message, where for the
identity lookup `Except.ok id` carries `data?.data?.id || ""`). -/
structure RefreshEnv where
  tokenConfigured : Bool
  now : String
  resolveResponse : Except String String
  fetchResponse : Except String FetchResponse
  notifyTime : String

/-- Model of `resolveUserId` (`server.mjs` lines 169-176): propagate a request failure,
and throw `"User ID not found."` when the response carries no id. -/
def resolveUserId (env : RefreshEnv) : Except String String :=
  match env.resolveResponse with
  | .error msg => .error msg
  | .ok id => if id = "" then .error "User ID not found." else .ok id

/-- The success tail of `refreshOneAccount` (`server.mjs` lines 315-332):
replace the content fields wholesale from the fetched list, denormalize the
newest item, set `initialized`, and emit a `new_post` event exactly when the
account was already initialized, a previous newest id existed, a newest item
exists, and the ids differ. -/
def updateFromFetch (env : RefreshEnv) (account1 : Account) (resp : FetchResponse) :
    Account × List Event :=
  let recentTweets := fetchRecentTweets account1.username resp
  let newest := recentTweets.head?
  let wasInitialized := account1.initialized
  let previousLatestTweetId := account1.latestTweetId
  let account2 :=
    { account1 with
      recentTweets := recentTweets
      latestTweetId := jsOr ((newest.map ContentItem.id).getD "") ""
      latestTweetText := jsOr ((newest.map ContentItem.text).getD "") ""
      latestTweetCreatedAt := jsOr ((newest.map ContentItem.createdAt).getD "") ""
      latestTweetUrl := jsOr ((newest.map ContentItem.url).getD "") ""
      initialized := true }
  let doNotify :=
    wasInitialized && previousLatestTweetId != "" &&
      (match newest with
       | some n => previousLatestTweetId != n.id
       | none => false)
  (account2,
   if doNotify then [Event.newPost (serializeAccount account2) env.notifyTime] else [])

/-- Model of `refreshOneAccount(account)` from `server.mjs` lines 301-336: clear
`error`, stamp `lastCheckedAt`; stop with a configuration error when no token
is configured; otherwise resolve the user id if unknown, then run the fetch
and the success-path update; any failure is caught into `error`. Returns the
updated account and the emitted events. -/
def refreshOneAccount (env : RefreshEnv) (account0 : Account) : Account × List Event :=
  let account := { account0 with error := "", lastCheckedAt := env.now }
  if env.tokenConfigured = false then
    ({ account with error := tokenMissingMsg }, [])
  else
    let resolvedStep : Except String Account :=
      if account.userId = "" then
        match resolveUserId env with
        | .error msg => .error msg
        | .ok id => .ok { account with userId := id }
      else .ok account
    match resolvedStep with
    | .error msg => ({ account with error := msg }, [])
    | .ok account1 =>
      match env.fetchResponse with
      | .error msg => ({ account1 with error := msg }, [])
      | .ok resp => updateFromFetch env account1 resp

/-- First failure point of a refresh attempt, mirroring the control flow of
`refreshOneAccount`: `some msg` when the attempt fails with `msg` stored into
`error`, `none` when the attempt reaches the success path. -/
def refreshFailureMsg (env : RefreshEnv) (account : Account) : Option String :=
  if env.tokenConfigured = false then some tokenMissingMsg
  else
    match (if account.userId = "" then resolveUserId env else .ok account.userId) with
    | .error msg => some msg
    | .ok _ =>
      match env.fetchResponse with
      | .error msg => some msg
      | .ok _ => none

/-- Result of one poll cycle. -/
structure PollOutcome where
  accounts : List Account
  events : List Event
  lastPollCompletedAt : String
deriving DecidableEq

/-- Model of `pollAccounts()` from `server.mjs` lines 338-347: every account is
refreshed (each with its own environment — `Promise.allSettled` joins them all
regardless of individual outcomes), the completion time is recorded, and a
single full-state `state` snapshot of all accounts is broadcast after the join. -/
def pollAccounts (pairs : List (Account × RefreshEnv)) (completedAt : String) :
    PollOutcome :=
  let results := pairs.map fun pair => refreshOneAccount pair.2 pair.1
  let refreshed := results.map Prod.fst
  { accounts := refreshed
    events :=
      (results.map Prod.snd).flatten ++
        [Event.stateSnapshot completedAt completedAt (refreshed.map serializeAccount)]
    lastPollCompletedAt := completedAt }

/-- One parsed JSON entry of `config/accounts.json`. A field is `some s` when
it is present and a string (`typeof x === "string"`), `none` otherwise; a
`null`/non-object array element is modelled as `none` at the list level. -/
structure RawEntry where
  name : Option String
  username : Option String
deriving DecidableEq

/-- Model of `username.replace(/^@/, "")`: strip a single leading `'@'`. -/
def stripLeadAt (s : String) : String :=
  match s.data with
  | '@' :: rest => String.mk rest
  | _ => s

/-- The fresh account record pushed by `loadAccounts` and `handleAddAccount`
(all content fields empty, `initialized = false`). -/
def freshAccount (name username : String) : Account :=
  { name := name
    username := username
    usernameKey := jsToLower username
    userId := ""
    recentTweets := []
    latestTweetId := ""
    latestTweetText := ""
    latestTweetCreatedAt := ""
    latestTweetUrl := ""
    error := ""
    initialized := false
    lastCheckedAt := "" }

/-- The `for` loop of `loadAccounts` (`server.mjs` lines 105-135), with `seen`
the set of lowercase username keys already kept: skip non-object entries and
entries whose `name` or `username` is not a string, trim and strip one leading
`@` from the username, skip empty results, dedupe case-insensitively keeping
the first occurrence. The display name falls back to the username when its
trim is empty. -/
def loadAccountsGo : List (Option RawEntry) → List String → List Account
  | [], _ => []
  | none :: rest, seen => loadAccountsGo rest seen
  | some item :: rest, seen =>
    match item.name, item.username with
    | some rawName, some rawUsername =>
      let username := stripLeadAt (jsTrim rawUsername)
      if username = "" then loadAccountsGo rest seen
      else
        let key := jsToLower username
        if seen.contains key then loadAccountsGo rest seen
        else
          { freshAccount (jsOr (jsTrim rawName) username) username with usernameKey := key } ::
            loadAccountsGo rest (key :: seen)
    | _, _ => loadAccountsGo rest seen

/-- Model of `loadAccounts` (`server.mjs` lines 93-136) restricted to its pure part:
the accounts produced from an already-parsed array of raw entries. -/
def loadAccounts (parsed : List (Option RawEntry)) : List Account :=
  loadAccountsGo parsed []

/-- Modelled from the spec: the claim's description of which raw entries
registry load keeps — name and username both strings, username non-empty after
trimming and stripping one leading `@`, lowercase username not already kept —
listing the kept usernames in order, for comparison with `loadAccounts`. -/
def specKeptUsernames : List (Option RawEntry) → List String → List String
  | [], _ => []
  | none :: rest, seen => specKeptUsernames rest seen
  | some item :: rest, seen =>
    match item.name, item.username with
    | some _, some rawUsername =>
      let username := stripLeadAt (jsTrim rawUsername)
      if username = "" then specKeptUsernames rest seen
      else if seen.contains (jsToLower username) then specKeptUsernames rest seen
      else username :: specKeptUsernames rest (jsToLower username :: seen)
    | _, _ => specKeptUsernames rest seen

/-- The character class `[A-Za-z0-9_]`. -/
def isHandleChar (c : Char) : Bool :=
  (65 ≤ c.toNat && c.toNat ≤ 90) || (97 ≤ c.toNat && c.toNat ≤ 122) ||
    (48 ≤ c.toNat && c.toNat ≤ 57) || c = '_'

/-- The handle-syntax test `/^[A-Za-z0-9_]{1,15}$/.test(username)`. -/
def validHandle (s : String) : Bool :=
  1 ≤ s.length && s.length ≤ 15 && s.data.all isHandleChar

/-- The three response shapes `handleAddAccount` produces on the modelled
paths: `400`, `409`, and `201` with the new serialized account. -/
inductive AddResponse where
  | badRequest (error : String)
  | conflict (error : String)
  | created (account : SerializedAccount)
deriving DecidableEq

/-- Observable outcome of `handleAddAccount`: the HTTP response, the registry
after the call, the `{name, username}` list written by `saveAccounts` (`none`
when nothing was persisted), and the broadcast events. -/
structure AddOutcome where
  response : AddResponse
  accounts : List Account
  persisted : Option (List (String × String))
  events : List Event
deriving DecidableEq

/-- Model of `handleAddAccount(req, res)` from `server.mjs` lines 390-444, given the
already-read body fields (after JS `String(x || "")` coercion): trim the name,
trim the username and strip one leading `@`; reject with `400` when either is
empty or the handle fails `^[A-Za-z0-9_]{1,15}$`; reject with `409` when the
lowercase key is already registered; otherwise push a fresh uninitialized
account, persist the `{name, username}` list, refresh the new account once,
respond `201` with its serialized state and broadcast a `state` snapshot. -/
def handleAddAccount (env : RefreshEnv) (nowTime lastPoll : String)
    (accounts : List Account) (bodyName bodyUsername : String) : AddOutcome :=
  let name := jsTrim bodyName
  let usernameRaw := jsTrim bodyUsername
  let username := stripLeadAt usernameRaw
  let usernameKey := jsToLower username
  if name = "" || username = "" then
    { response := .badRequest "name, username 값이 필요합니다."
      accounts := accounts, persisted := none, events := [] }
  else if !validHandle username then
    { response := .badRequest "username 형식이 올바르지 않습니다."
      accounts := accounts, persisted := none, events := [] }
  else if accounts.any fun account => account.usernameKey == usernameKey then
    { response := .conflict "이미 등록된 계정입니다."
      accounts := accounts, persisted := none, events := [] }
  else
    let newAccount := freshAccount name username
    let accountsMid := accounts ++ [newAccount]
    let persisted := accountsMid.map fun account => (account.name, account.username)
    let refreshedPair := refreshOneAccount env newAccount
    let accountsFinal := accounts ++ [refreshedPair.1]
    { response := .created (serializeAccount refreshedPair.1)
      accounts := accountsFinal
      persisted := some persisted
      events :=
        refreshedPair.2 ++
          [Event.stateSnapshot nowTime lastPoll (accountsFinal.map serializeAccount)] }

/-- Returns `true` exactly for the full-state `state` snapshot event. -/
def isStateEvent : Event → Bool
  | .stateSnapshot _ _ _ => true
  | _ => false

/-! ### Concrete fixtures -/

/-- A plain text tweet used as a concrete fetch result. -/
def tweet101 : Tweet :=
  { id := "101", text := "hello", created_at := "2024-05-01T00:00:00Z"
    media_keys := none, entity_urls := none }

/-- A successful fetch response containing exactly `tweet101`. -/
def resp101 : FetchResponse := { data := some [tweet101], includesMedia := none }

/-- A fully successful refresh environment. -/
def envOk : RefreshEnv :=
  { tokenConfigured := true, now := "2024-05-01T00:01:00Z"
    resolveResponse := Except.ok "id1", fetchResponse := Except.ok resp101
    notifyTime := "2024-05-01T00:01:01Z" }

/-- A refresh environment with no configured credential. -/
def envNoToken : RefreshEnv :=
  { tokenConfigured := false, now := "T0", resolveResponse := Except.ok "id1"
    fetchResponse := Except.ok resp101, notifyTime := "T1" }

/-- A refresh environment whose identity resolution succeeds but whose fetch
fails. -/
def envFetchFail : RefreshEnv :=
  { tokenConfigured := true, now := "T0", resolveResponse := Except.ok "id123"
    fetchResponse := Except.error "X API error (500): boom", notifyTime := "T1" }

/-- A never-refreshed account as created by registry load / add. -/
def acctFresh : Account := freshAccount "A" "foo"

/-- An already-initialized account with known id and a previous newest item. -/
def acctInit : Account :=
  { freshAccount "A" "foo" with
    initialized := true
    latestTweetId := "100"
    userId := "uid7" }

/-- A tweet with no structured media and one image entity link. -/
def tweetPic : Tweet :=
  { id := "7", text := "look", created_at := ""
    media_keys := none
    entity_urls := some [{ expanded_url := "https://img.example/pic.jpg?x=1", url := "" }] }

/-! ### Helper lemmas -/

theorem jsOr_empty_right (a : String) : jsOr a "" = a := by
  unfold jsOr; split <;> simp_all

theorem insertDesc_perm (v : Variant) :
    ∀ l : List Variant, (insertDesc v l).Perm (v :: l)
  | [] => List.Perm.refl _
  | w :: ws => by
    unfold insertDesc
    split
    · exact List.Perm.refl _
    · exact ((insertDesc_perm v ws).cons w).trans (List.Perm.swap v w ws)

theorem insertDesc_pairwise (v : Variant) :
    ∀ l : List Variant,
      l.Pairwise (fun a b => bitrateOf b ≤ bitrateOf a) →
      (insertDesc v l).Pairwise (fun a b => bitrateOf b ≤ bitrateOf a)
  | [], _ => by simp [insertDesc]
  | w :: ws, h => by
    rw [List.pairwise_cons] at h
    unfold insertDesc
    split
    · rename_i hvw
      refine List.Pairwise.cons ?_ (List.Pairwise.cons h.1 h.2)
      intro x hx
      rcases List.mem_cons.mp hx with rfl | hx
      · exact hvw
      · exact le_trans (h.1 x hx) hvw
    · rename_i hvw
      refine List.Pairwise.cons ?_ (insertDesc_pairwise v ws h.2)
      intro x hx
      rcases List.mem_cons.mp ((insertDesc_perm v ws).mem_iff.mp hx) with rfl | hx
      · exact le_of_not_le hvw
      · exact h.1 x hx

theorem sortDescBitrate_perm :
    ∀ l : List Variant, (sortDescBitrate l).Perm l
  | [] => List.Perm.refl _
  | v :: vs =>
    (insertDesc_perm v (sortDescBitrate vs)).trans ((sortDescBitrate_perm vs).cons v)

theorem sortDescBitrate_pairwise :
    ∀ l : List Variant,
      (sortDescBitrate l).Pairwise (fun a b => bitrateOf b ≤ bitrateOf a)
  | [] => List.Pairwise.nil
  | v :: vs => insertDesc_pairwise v (sortDescBitrate vs) (sortDescBitrate_pairwise vs)

theorem refreshOneAccount_noToken (env : RefreshEnv) (a : Account)
    (h : env.tokenConfigured = false) :
    refreshOneAccount env a =
      ({ a with error := tokenMissingMsg, lastCheckedAt := env.now }, []) := by
  simp [refreshOneAccount, h]

theorem refreshOneAccount_resolveErr (env : RefreshEnv) (a : Account) (msg : String)
    (ht : env.tokenConfigured = true) (hu : a.userId = "")
    (hr : resolveUserId env = .error msg) :
    refreshOneAccount env a =
      ({ a with error := msg, lastCheckedAt := env.now }, []) := by
  simp [refreshOneAccount, ht, hu, hr]

theorem refreshOneAccount_resolveOk_fetchErr (env : RefreshEnv) (a : Account)
    (id msg : String) (ht : env.tokenConfigured = true) (hu : a.userId = "")
    (hr : resolveUserId env = .ok id) (hf : env.fetchResponse = .error msg) :
    refreshOneAccount env a =
      ({ a with userId := id, error := msg, lastCheckedAt := env.now }, []) := by
  simp [refreshOneAccount, ht, hu, hr, hf]

theorem refreshOneAccount_knownId_fetchErr (env : RefreshEnv) (a : Account)
    (msg : String) (ht : env.tokenConfigured = true) (hu : a.userId ≠ "")
    (hf : env.fetchResponse = .error msg) :
    refreshOneAccount env a =
      ({ a with error := msg, lastCheckedAt := env.now }, []) := by
  simp [refreshOneAccount, ht, hu, hf]

theorem refreshOneAccount_resolveOk_fetchOk (env : RefreshEnv) (a : Account)
    (id : String) (resp : FetchResponse) (ht : env.tokenConfigured = true)
    (hu : a.userId = "") (hr : resolveUserId env = .ok id)
    (hf : env.fetchResponse = .ok resp) :
    refreshOneAccount env a =
      updateFromFetch env { a with userId := id, error := "", lastCheckedAt := env.now }
        resp := by
  simp [refreshOneAccount, ht, hu, hr, hf]

theorem refreshOneAccount_knownId_fetchOk (env : RefreshEnv) (a : Account)
    (resp : FetchResponse) (ht : env.tokenConfigured = true) (hu : a.userId ≠ "")
    (hf : env.fetchResponse = .ok resp) :
    refreshOneAccount env a =
      updateFromFetch env { a with error := "", lastCheckedAt := env.now } resp := by
  simp [refreshOneAccount, ht, hu, hf]

theorem if_singleton_ne_nil {α : Type} (b : Bool) (x : α) :
    ((if b then [x] else []) ≠ []) ↔ b = true := by
  cases b <;> simp

theorem if_singleton_length_le {α : Type} (b : Bool) (x : α) :
    (if b then [x] else []).length ≤ 1 := by
  cases b <;> simp

theorem mem_if_singleton {α : Type} {b : Bool} {x y : α}
    (h : y ∈ (if b then [x] else [])) : y = x := by
  cases b <;> simp_all

theorem if_prop_singleton_length_le {α : Type} (p : Prop) [Decidable p] (x : α) :
    (if p then [x] else []).length ≤ 1 := by
  split <;> simp

theorem mem_if_prop_singleton {α : Type} {p : Prop} [Decidable p] {x y : α}
    (h : y ∈ (if p then [x] else [])) : y = x := by
  split at h <;> simp_all

/-! ### Claims -/

/-- C1: a `new_post` notification is emitted by a refresh exactly when the
account was already initialized, a previous newest id existed, the refresh
reached the success path with a newest item, and the two ids differ; at most
one event is emitted per refresh, none on a first refresh (uninitialized
account), and an emitted event carries the account's new serialized state. -/
theorem claim_c1 (env : RefreshEnv) (a : Account) :
    ((refreshOneAccount env a).2 ≠ [] ↔
      env.tokenConfigured = true ∧
      (a.userId ≠ "" ∨ ∃ id, resolveUserId env = .ok id) ∧
      ∃ resp, env.fetchResponse = .ok resp ∧
        ∃ newest, (fetchRecentTweets a.username resp).head? = some newest ∧
          a.initialized = true ∧ a.latestTweetId ≠ "" ∧ a.latestTweetId ≠ newest.id) ∧
    (refreshOneAccount env a).2.length ≤ 1 ∧
    (a.initialized = false → (refreshOneAccount env a).2 = []) ∧
    ∀ e ∈ (refreshOneAccount env a).2,
      e = Event.newPost (serializeAccount (refreshOneAccount env a).1) env.notifyTime := by
  cases htok : env.tokenConfigured with
  | false =>
    rw [refreshOneAccount_noToken env a htok]
    simp [htok]
  | true =>
    by_cases hu : a.userId = ""
    · cases hr : resolveUserId env with
      | error msg =>
        rw [refreshOneAccount_resolveErr env a msg htok hu hr]
        simp [hu, hr]
      | ok id =>
        cases hf : env.fetchResponse with
        | error msg =>
          rw [refreshOneAccount_resolveOk_fetchErr env a id msg htok hu hr hf]
          simp [hf]
        | ok resp =>
          rw [refreshOneAccount_resolveOk_fetchOk env a id resp htok hu hr hf]
          cases hh : (fetchRecentTweets a.username resp).head? with
          | none =>
            simp [updateFromFetch, hh, hr, hf]
          | some n =>
            simp [updateFromFetch, hh, hr, hf, if_singleton_ne_nil, and_assoc]
            refine ⟨if_prop_singleton_length_le _ _, fun h1 h2 => absurd h2 (by simp [h1])⟩
    · cases hf : env.fetchResponse with
      | error msg =>
        rw [refreshOneAccount_knownId_fetchErr env a msg htok hu hf]
        simp [hf]
      | ok resp =>
        rw [refreshOneAccount_knownId_fetchOk env a resp htok hu hf]
        cases hh : (fetchRecentTweets a.username resp).head? with
        | none =>
          simp [updateFromFetch, hh, hu, hf]
        | some n =>
          simp [updateFromFetch, hh, hu, hf, if_singleton_ne_nil, and_assoc]
          refine ⟨if_prop_singleton_length_le _ _, fun h1 h2 => absurd h2 (by simp [h1])⟩

/-- C7: for every variants list, the candidates are filtered to exactly the
entries whose `content_type` is `"video/mp4"` and whose url is present, the
candidates are sorted stably by descending bitrate with the top entry's url
returned, and the empty string is returned when no candidate exists; on the
spec's example list the selected URL is `"b"`. -/
theorem claim_c7 :
    (∀ variants : List Variant,
      (∀ v : Variant, v ∈ variants.filter isUsableMp4 ↔
        v ∈ variants ∧ v.content_type = "video/mp4" ∧ v.url ≠ "") ∧
      (variants.filter isUsableMp4 = [] → pickBestVideoVariant (some variants) = "") ∧
      (variants.filter isUsableMp4 ≠ [] →
        ∃ best, best ∈ variants.filter isUsableMp4 ∧
          pickBestVideoVariant (some variants) = best.url ∧
          ∀ w ∈ variants.filter isUsableMp4, bitrateOf w ≤ bitrateOf best) ∧
      (sortDescBitrate (variants.filter isUsableMp4)).Perm (variants.filter isUsableMp4) ∧
      (sortDescBitrate (variants.filter isUsableMp4)).Pairwise
        (fun a b => bitrateOf b ≤ bitrateOf a)) ∧
    pickBestVideoVariant none = "" ∧
    pickBestVideoVariant (some
      [⟨"video/mp4", some 500, "a"⟩, ⟨"video/mp4", some 2000, "b"⟩,
       ⟨"application/x-mpegURL", some 9999, "c"⟩]) = "b" := by
  refine ⟨fun variants => ⟨?_, ?_, ?_, sortDescBitrate_perm _, sortDescBitrate_pairwise _⟩,
    rfl, by decide⟩
  · intro v
    simp [List.mem_filter, isUsableMp4, and_assoc]
  · intro h
    simp [pickBestVideoVariant, h, sortDescBitrate]
  · intro h
    unfold pickBestVideoVariant
    rcases hs : sortDescBitrate (variants.filter isUsableMp4) with _ | ⟨best, rest⟩
    · have hperm := sortDescBitrate_perm (variants.filter isUsableMp4)
      rw [hs] at hperm
      exact absurd hperm.symm.eq_nil h
    · refine ⟨best, ?_, ?_, ?_⟩
      · exact (sortDescBitrate_perm _).mem_iff.mp (hs ▸ List.mem_cons_self best rest)
      · simp [hs, jsOr_empty_right]
      · intro w hw
        have hw2 : w ∈ best :: rest := hs ▸ (sortDescBitrate_perm _).mem_iff.mpr hw
        rcases List.mem_cons.mp hw2 with rfl | hw2
        · exact le_refl _
        · have hp := sortDescBitrate_pairwise (variants.filter isUsableMp4)
          rw [hs, List.pairwise_cons] at hp
          exact hp.1 w hw2

/-- C7 witness: the nonempty-candidates branch applied at the spec's example
list. -/
theorem claim_c7_witness :
    ∃ best, best ∈ ([⟨"video/mp4", some 500, "a"⟩, ⟨"video/mp4", some 2000, "b"⟩,
        ⟨"application/x-mpegURL", some 9999, "c"⟩] : List Variant).filter isUsableMp4 ∧
      pickBestVideoVariant (some
        [⟨"video/mp4", some 500, "a"⟩, ⟨"video/mp4", some 2000, "b"⟩,
         ⟨"application/x-mpegURL", some 9999, "c"⟩]) = best.url ∧
      ∀ w ∈ ([⟨"video/mp4", some 500, "a"⟩, ⟨"video/mp4", some 2000, "b"⟩,
          ⟨"application/x-mpegURL", some 9999, "c"⟩] : List Variant).filter isUsableMp4,
        bitrateOf w ≤ bitrateOf best :=
  (claim_c7.1 _).2.2.1 (by decide)

theorem loadAccountsGo_map_username :
    ∀ (parsed : List (Option RawEntry)) (seen : List String),
      (loadAccountsGo parsed seen).map Account.username = specKeptUsernames parsed seen
  | [], _ => rfl
  | none :: rest, seen => loadAccountsGo_map_username rest seen
  | some item :: rest, seen => by
    unfold loadAccountsGo specKeptUsernames
    rcases item.name with _ | rawName <;> rcases item.username with _ | rawUsername <;>
      simp only []
    · exact loadAccountsGo_map_username rest seen
    · exact loadAccountsGo_map_username rest seen
    · exact loadAccountsGo_map_username rest seen
    · split
      · exact loadAccountsGo_map_username rest seen
      · split
        · exact loadAccountsGo_map_username rest seen
        · simp [loadAccountsGo_map_username rest, freshAccount]

theorem loadAccountsGo_keys_fresh :
    ∀ (parsed : List (Option RawEntry)) (seen : List String),
      ∀ a ∈ loadAccountsGo parsed seen, seen.contains a.usernameKey = false
  | [], _ => by simp [loadAccountsGo]
  | none :: rest, seen => loadAccountsGo_keys_fresh rest seen
  | some item :: rest, seen => by
    unfold loadAccountsGo
    rcases item.name with _ | rawName <;> rcases item.username with _ | rawUsername <;>
      simp only []
    · exact loadAccountsGo_keys_fresh rest seen
    · exact loadAccountsGo_keys_fresh rest seen
    · exact loadAccountsGo_keys_fresh rest seen
    · split
      · exact loadAccountsGo_keys_fresh rest seen
      · split
        · exact loadAccountsGo_keys_fresh rest seen
        · rename_i hne hseen
          intro a ha
          rcases List.mem_cons.mp ha with rfl | ha
          · simpa using hseen
          · have := loadAccountsGo_keys_fresh rest _ a ha
            simp only [List.contains_cons, Bool.or_eq_false_iff] at this
            exact this.2

theorem loadAccountsGo_pairwise_keys :
    ∀ (parsed : List (Option RawEntry)) (seen : List String),
      (loadAccountsGo parsed seen).Pairwise (fun a b => a.usernameKey ≠ b.usernameKey)
  | [], _ => List.Pairwise.nil
  | none :: rest, seen => loadAccountsGo_pairwise_keys rest seen
  | some item :: rest, seen => by
    unfold loadAccountsGo
    rcases item.name with _ | rawName <;> rcases item.username with _ | rawUsername <;>
      simp only []
    · exact loadAccountsGo_pairwise_keys rest seen
    · exact loadAccountsGo_pairwise_keys rest seen
    · exact loadAccountsGo_pairwise_keys rest seen
    · split
      · exact loadAccountsGo_pairwise_keys rest seen
      · split
        · exact loadAccountsGo_pairwise_keys rest seen
        · refine List.Pairwise.cons ?_ (loadAccountsGo_pairwise_keys rest _)
          intro b hb
          have := loadAccountsGo_keys_fresh rest _ b hb
          simp only [List.contains_cons, Bool.or_eq_false_iff] at this
          intro hkey
          have := this.1
          simp only [beq_eq_false_iff_ne, ne_eq] at this
          exact this hkey.symm

/-- C5: registry load keeps exactly the entries described by the spec — name
and username both strings, username non-empty after trimming and stripping one
leading `@`, lowercase username not seen before (first occurrence wins), all
silently — and on the spec's example input it yields exactly one account with
username `"foo"`. The kept accounts carry pairwise-distinct lowercase keys. -/
theorem claim_c5 :
    (∀ parsed : List (Option RawEntry),
      (loadAccounts parsed).map Account.username = specKeptUsernames parsed [] ∧
      (loadAccounts parsed).Pairwise (fun a b => a.usernameKey ≠ b.usernameKey)) ∧
    (loadAccounts [some ⟨some "A", some "foo"⟩, some ⟨some "B", some "FOO"⟩]).map
        Account.username = ["foo"] ∧
    (loadAccounts [some ⟨some "A", some "foo"⟩, some ⟨some "B", some "FOO"⟩]).length = 1 := by
  refine ⟨fun parsed => ⟨loadAccountsGo_map_username parsed [],
    loadAccountsGo_pairwise_keys parsed []⟩, by decide, by decide⟩

/-- C1 witness: on a concrete uninitialized account the refresh emits no
event. -/
theorem claim_c1_witness : (refreshOneAccount envOk acctFresh).2 = [] :=
  (claim_c1 envOk acctFresh).2.2.1 rfl

/-- C2 counterexample: a first refresh attempt that completes in failure (no
credential configured) leaves `initialized = false`, contradicting the claim
that it is true after every completed first attempt. -/
theorem claim_c2_counterexample :
    acctFresh.initialized = false ∧
    (refreshOneAccount envNoToken acctFresh).1.error ≠ "" ∧
    (refreshOneAccount envNoToken acctFresh).1.initialized = false := by
  decide

/-- C2 amended: `initialized` becomes true exactly when the refresh attempt
reaches the success path; on every failing attempt (missing credential, failed
resolution, failed fetch) it is left unchanged — so it stays false after a
failed first attempt. -/
theorem claim_c2_amended (env : RefreshEnv) (a : Account) :
    (refreshFailureMsg env a = none → (refreshOneAccount env a).1.initialized = true) ∧
    ∀ msg, refreshFailureMsg env a = some msg →
      (refreshOneAccount env a).1.initialized = a.initialized := by
  cases htok : env.tokenConfigured with
  | false =>
    rw [refreshOneAccount_noToken env a htok]
    simp [refreshFailureMsg, htok]
  | true =>
    by_cases hu : a.userId = ""
    · cases hr : resolveUserId env with
      | error msg =>
        rw [refreshOneAccount_resolveErr env a msg htok hu hr]
        simp [refreshFailureMsg, htok, hu, hr]
      | ok id =>
        cases hf : env.fetchResponse with
        | error msg =>
          rw [refreshOneAccount_resolveOk_fetchErr env a id msg htok hu hr hf]
          simp [refreshFailureMsg, htok, hu, hr, hf]
        | ok resp =>
          rw [refreshOneAccount_resolveOk_fetchOk env a id resp htok hu hr hf]
          simp [refreshFailureMsg, htok, hu, hr, hf, updateFromFetch]
    · cases hf : env.fetchResponse with
      | error msg =>
        rw [refreshOneAccount_knownId_fetchErr env a msg htok hu hf]
        simp [refreshFailureMsg, htok, hu, hf]
      | ok resp =>
        rw [refreshOneAccount_knownId_fetchOk env a resp htok hu hf]
        simp [refreshFailureMsg, htok, hu, hf, updateFromFetch]

/-- C2 witness: the amended claim applied at a concrete successful first
refresh. -/
theorem claim_c2_witness :
    refreshFailureMsg envOk acctFresh = none ∧
    (refreshOneAccount envOk acctFresh).1.initialized = true :=
  ⟨by decide, (claim_c2_amended envOk acctFresh).1 (by decide)⟩

theorem resolveUserId_error_ne_empty (env : RefreshEnv)
    (hres : ∀ s, env.resolveResponse = .error s → s ≠ "") (m : String)
    (h : resolveUserId env = .error m) : m ≠ "" := by
  unfold resolveUserId at h
  cases hr : env.resolveResponse with
  | error s =>
    rw [hr] at h
    cases h
    exact hres _ hr
  | ok id =>
    rw [hr] at h
    by_cases hid : id = ""
    · simp [hid] at h
      simp [← h]
    · simp [hid] at h

/-- C3 counterexample: a refresh that fails at the fetch step after a
successful identity resolution changes `userId` as well, contradicting the
claim that only `lastError` and `lastCheckedAt` change on failure. -/
theorem claim_c3_counterexample :
    (refreshOneAccount envFetchFail acctFresh).1.error = "X API error (500): boom" ∧
    acctFresh.userId = "" ∧
    (refreshOneAccount envFetchFail acctFresh).1.userId = "id123" := by
  decide

/-- C3 amended: on a failing refresh attempt the failure is stored in `error`
as a non-empty message (given the API layer's thrown messages are non-empty,
which holds for its `"X API error (...): ..."` format), all previously-known
content fields and `initialized` are unchanged, `lastCheckedAt` is stamped,
and no event is emitted; besides `error` and `lastCheckedAt`, only `userId`
may change (when resolution succeeded before a failing fetch). -/
theorem claim_c3_amended (env : RefreshEnv) (a : Account) (msg : String)
    (hres : ∀ s, env.resolveResponse = .error s → s ≠ "")
    (hfet : ∀ s, env.fetchResponse = .error s → s ≠ "")
    (hfail : refreshFailureMsg env a = some msg) :
    (refreshOneAccount env a).1.error = msg ∧ msg ≠ "" ∧
    (refreshOneAccount env a).1.recentTweets = a.recentTweets ∧
    (refreshOneAccount env a).1.latestTweetId = a.latestTweetId ∧
    (refreshOneAccount env a).1.latestTweetText = a.latestTweetText ∧
    (refreshOneAccount env a).1.latestTweetCreatedAt = a.latestTweetCreatedAt ∧
    (refreshOneAccount env a).1.latestTweetUrl = a.latestTweetUrl ∧
    (refreshOneAccount env a).1.initialized = a.initialized ∧
    (refreshOneAccount env a).1.name = a.name ∧
    (refreshOneAccount env a).1.username = a.username ∧
    (refreshOneAccount env a).1.lastCheckedAt = env.now ∧
    (refreshOneAccount env a).2 = [] := by
  cases htok : env.tokenConfigured with
  | false =>
    rw [refreshOneAccount_noToken env a htok]
    simp [refreshFailureMsg, htok] at hfail
    subst hfail
    simp [tokenMissingMsg]
  | true =>
    by_cases hu : a.userId = ""
    · cases hr : resolveUserId env with
      | error m =>
        rw [refreshOneAccount_resolveErr env a m htok hu hr]
        simp [refreshFailureMsg, htok, hu, hr] at hfail
        subst hfail
        simpa using resolveUserId_error_ne_empty env hres m hr
      | ok id =>
        cases hf : env.fetchResponse with
        | error m =>
          rw [refreshOneAccount_resolveOk_fetchErr env a id m htok hu hr hf]
          simp [refreshFailureMsg, htok, hu, hr, hf] at hfail
          subst hfail
          simpa using hfet _ hf
        | ok resp =>
          simp [refreshFailureMsg, htok, hu, hr, hf] at hfail
    · cases hf : env.fetchResponse with
      | error m =>
        rw [refreshOneAccount_knownId_fetchErr env a m htok hu hf]
        simp [refreshFailureMsg, htok, hu, hf] at hfail
        subst hfail
        simpa using hfet _ hf
      | ok resp =>
        simp [refreshFailureMsg, htok, hu, hf] at hfail

/-- C3 witness: the amended claim applied at a concrete failing fetch on an
initialized account. -/
theorem claim_c3_witness :
    (refreshOneAccount envFetchFail acctInit).1.error = "X API error (500): boom" ∧
    "X API error (500): boom" ≠ "" ∧
    (refreshOneAccount envFetchFail acctInit).1.recentTweets = acctInit.recentTweets ∧
    (refreshOneAccount envFetchFail acctInit).1.latestTweetId = acctInit.latestTweetId ∧
    (refreshOneAccount envFetchFail acctInit).1.latestTweetText = acctInit.latestTweetText ∧
    (refreshOneAccount envFetchFail acctInit).1.latestTweetCreatedAt =
      acctInit.latestTweetCreatedAt ∧
    (refreshOneAccount envFetchFail acctInit).1.latestTweetUrl = acctInit.latestTweetUrl ∧
    (refreshOneAccount envFetchFail acctInit).1.initialized = acctInit.initialized ∧
    (refreshOneAccount envFetchFail acctInit).1.name = acctInit.name ∧
    (refreshOneAccount envFetchFail acctInit).1.username = acctInit.username ∧
    (refreshOneAccount envFetchFail acctInit).1.lastCheckedAt = envFetchFail.now ∧
    (refreshOneAccount envFetchFail acctInit).2 = [] :=
  claim_c3_amended envFetchFail acctInit "X API error (500): boom"
    (fun s h => by simp [envFetchFail] at h)
    (fun s h => by
      simp [envFetchFail] at h
      simp [← h])
    (by decide)

theorem fetchRecentTweets_some (username : String) (resp : FetchResponse)
    (l : List Tweet) (hl : resp.data = some l) :
    fetchRecentTweets username resp =
      if l = [] then []
      else l.map fun t => serializeTweet username t
        (buildMediaByKey (match resp.includesMedia with | some m => m | none => [])) := by
  unfold fetchRecentTweets
  rw [hl]
  cases l <;> simp

theorem refreshOneAccount_events_no_snapshot (env : RefreshEnv) (a : Account) :
    ∀ e ∈ (refreshOneAccount env a).2, isStateEvent e = false := by
  cases htok : env.tokenConfigured with
  | false => rw [refreshOneAccount_noToken env a htok]; simp
  | true =>
    by_cases hu : a.userId = ""
    · cases hr : resolveUserId env with
      | error msg => rw [refreshOneAccount_resolveErr env a msg htok hu hr]; simp
      | ok id =>
        cases hf : env.fetchResponse with
        | error msg =>
          rw [refreshOneAccount_resolveOk_fetchErr env a id msg htok hu hr hf]; simp
        | ok resp =>
          rw [refreshOneAccount_resolveOk_fetchOk env a id resp htok hu hr hf]
          intro e he
          simp only [updateFromFetch] at he
          rw [mem_if_prop_singleton he]
          rfl
    · cases hf : env.fetchResponse with
      | error msg => rw [refreshOneAccount_knownId_fetchErr env a msg htok hu hf]; simp
      | ok resp =>
        rw [refreshOneAccount_knownId_fetchOk env a resp htok hu hf]
        intro e he
        simp only [updateFromFetch] at he
        rw [mem_if_prop_singleton he]
        rfl

/-- C4: a poll cycle refreshes every registered account — the i-th resulting
account is exactly the refresh of the i-th input with its own environment,
whatever the other accounts' outcomes — records the completion time after the
join, and broadcasts exactly one full-state snapshot event, which lists every
account's current serialized state. -/
theorem claim_c4 (pairs : List (Account × RefreshEnv)) (completedAt : String) :
    (pollAccounts pairs completedAt).accounts.length = pairs.length ∧
    (∀ i : Fin pairs.length,
      (pollAccounts pairs completedAt).accounts[i.val]? =
        some (refreshOneAccount (pairs.get i).2 (pairs.get i).1).1) ∧
    (pollAccounts pairs completedAt).lastPollCompletedAt = completedAt ∧
    (pollAccounts pairs completedAt).events.filter isStateEvent =
      [Event.stateSnapshot completedAt completedAt
        ((pollAccounts pairs completedAt).accounts.map serializeAccount)] := by
  refine ⟨by simp [pollAccounts], ?_, rfl, ?_⟩
  · intro i
    simp [pollAccounts, List.getElem?_eq_getElem, i.isLt]
  · simp only [pollAccounts, List.filter_append]
    rw [List.filter_eq_nil_iff.mpr, List.nil_append]
    · simp [isStateEvent]
    · intro e he
      rw [List.mem_flatten] at he
      obtain ⟨es, hes, he⟩ := he
      rw [List.mem_map] at hes
      obtain ⟨res, hres2, rfl⟩ := hes
      rw [List.mem_map] at hres2
      obtain ⟨pair, hmem, rfl⟩ := hres2
      simp [refreshOneAccount_events_no_snapshot pair.2 pair.1 e he]

/-- C9: after a successful refresh, `recentItems` is replaced wholesale by the
serialized fetch result in provider order (independent of the previous list),
is empty when the provider returned no items, and has at most 5 entries
whenever the provider returned at most 5 raw items (the request asks for
`max_results=5`). -/
theorem claim_c9 (env : RefreshEnv) (a : Account) (resp : FetchResponse)
    (ht : env.tokenConfigured = true)
    (hf : env.fetchResponse = .ok resp)
    (hres : a.userId ≠ "" ∨ ∃ id, resolveUserId env = .ok id) :
    (refreshOneAccount env a).1.recentTweets = fetchRecentTweets a.username resp ∧
    (∀ l, resp.data = some l →
      (refreshOneAccount env a).1.recentTweets.length ≤ l.length) ∧
    (∀ l, resp.data = some l → l ≠ [] →
      (refreshOneAccount env a).1.recentTweets =
        l.map fun t => serializeTweet a.username t
          (buildMediaByKey (match resp.includesMedia with | some m => m | none => []))) ∧
    (resp.data = none → (refreshOneAccount env a).1.recentTweets = []) ∧
    (∀ l, resp.data = some l → l.length ≤ 5 →
      (refreshOneAccount env a).1.recentTweets.length ≤ 5) ∧
    (∀ old, (refreshOneAccount env { a with recentTweets := old }).1.recentTweets =
      (refreshOneAccount env a).1.recentTweets) := by
  have key : ∀ b : Account, b.userId = a.userId → b.username = a.username →
      (refreshOneAccount env b).1.recentTweets = fetchRecentTweets a.username resp := by
    intro b hbu hbn
    by_cases hu : b.userId = ""
    · obtain ⟨id, hr⟩ : ∃ id, resolveUserId env = .ok id := by
        rcases hres with h | h
        · exact absurd (hbu ▸ hu) h
        · exact h
      rw [refreshOneAccount_resolveOk_fetchOk env b id resp ht hu hr hf]
      simp [updateFromFetch, hbn]
    · rw [refreshOneAccount_knownId_fetchOk env b resp ht hu hf]
      simp [updateFromFetch, hbn]
  have main := key a rfl rfl
  refine ⟨main, ?_, ?_, ?_, ?_,
    fun old => (key { a with recentTweets := old } rfl rfl).trans main.symm⟩
  · intro l hl
    rw [main, fetchRecentTweets_some a.username resp l hl]
    split <;> simp
  · intro l hl hne
    rw [main, fetchRecentTweets_some a.username resp l hl]
    simp [hne]
  · intro hl
    rw [main]
    unfold fetchRecentTweets
    rw [hl]
  · intro l hl h5
    rw [main, fetchRecentTweets_some a.username resp l hl]
    split
    · simp
    · simpa using h5

/-- C9 witness: the successful-refresh conclusions at a concrete account and
response. -/
theorem claim_c9_witness :
    (refreshOneAccount envOk acctFresh).1.recentTweets =
      fetchRecentTweets acctFresh.username resp101 :=
  (claim_c9 envOk acctFresh resp101 (by decide) (by simp [envOk])
    (Or.inr ⟨"id1", rfl⟩)).1

theorem validHandle_ne_empty {s : String} (h : validHandle s = true) : s ≠ "" := by
  intro he
  subst he
  simp [validHandle] at h

theorem refreshOneAccount_username (env : RefreshEnv) (a : Account) :
    (refreshOneAccount env a).1.username = a.username := by
  cases htok : env.tokenConfigured with
  | false => rw [refreshOneAccount_noToken env a htok]
  | true =>
    by_cases hu : a.userId = ""
    · cases hr : resolveUserId env with
      | error msg => rw [refreshOneAccount_resolveErr env a msg htok hu hr]
      | ok id =>
        cases hf : env.fetchResponse with
        | error msg => rw [refreshOneAccount_resolveOk_fetchErr env a id msg htok hu hr hf]
        | ok resp =>
          rw [refreshOneAccount_resolveOk_fetchOk env a id resp htok hu hr hf]
          simp [updateFromFetch]
    · cases hf : env.fetchResponse with
      | error msg => rw [refreshOneAccount_knownId_fetchErr env a msg htok hu hf]
      | ok resp =>
        rw [refreshOneAccount_knownId_fetchOk env a resp htok hu hf]
        simp [updateFromFetch]

/-- C6: the add-account handler rejects with `400` and no registry change when
the trimmed name or processed username is empty or the handle-syntax rule
fails; rejects with `409` and no registry change when the lowercase key is
already present; otherwise appends exactly one account created in the
`initialized = false` state (then refreshed once), persists the
`{name, username}` list including the new entry, and responds `201` with the
new serialized account. -/
theorem claim_c6 (env : RefreshEnv) (nowTime lastPoll : String)
    (accounts : List Account) (bodyName bodyUsername : String) :
    ((jsTrim bodyName = "" ∨ stripLeadAt (jsTrim bodyUsername) = "") →
      ∃ msg,
        (handleAddAccount env nowTime lastPoll accounts bodyName bodyUsername).response =
          .badRequest msg ∧
        (handleAddAccount env nowTime lastPoll accounts bodyName bodyUsername).accounts =
          accounts ∧
        (handleAddAccount env nowTime lastPoll accounts bodyName bodyUsername).persisted =
          none) ∧
    (jsTrim bodyName ≠ "" → stripLeadAt (jsTrim bodyUsername) ≠ "" →
      validHandle (stripLeadAt (jsTrim bodyUsername)) = false →
      ∃ msg,
        (handleAddAccount env nowTime lastPoll accounts bodyName bodyUsername).response =
          .badRequest msg ∧
        (handleAddAccount env nowTime lastPoll accounts bodyName bodyUsername).accounts =
          accounts ∧
        (handleAddAccount env nowTime lastPoll accounts bodyName bodyUsername).persisted =
          none) ∧
    (jsTrim bodyName ≠ "" →
      validHandle (stripLeadAt (jsTrim bodyUsername)) = true →
      (∃ a ∈ accounts, a.usernameKey = jsToLower (stripLeadAt (jsTrim bodyUsername))) →
      ∃ msg,
        (handleAddAccount env nowTime lastPoll accounts bodyName bodyUsername).response =
          .conflict msg ∧
        (handleAddAccount env nowTime lastPoll accounts bodyName bodyUsername).accounts =
          accounts ∧
        (handleAddAccount env nowTime lastPoll accounts bodyName bodyUsername).persisted =
          none) ∧
    (jsTrim bodyName ≠ "" →
      validHandle (stripLeadAt (jsTrim bodyUsername)) = true →
      (∀ a ∈ accounts, a.usernameKey ≠ jsToLower (stripLeadAt (jsTrim bodyUsername))) →
      (freshAccount (jsTrim bodyName) (stripLeadAt (jsTrim bodyUsername))).initialized
          = false ∧
      (handleAddAccount env nowTime lastPoll accounts bodyName bodyUsername).response =
        .created (serializeAccount (refreshOneAccount env
          (freshAccount (jsTrim bodyName) (stripLeadAt (jsTrim bodyUsername)))).1) ∧
      (handleAddAccount env nowTime lastPoll accounts bodyName bodyUsername).accounts =
        accounts ++ [(refreshOneAccount env
          (freshAccount (jsTrim bodyName) (stripLeadAt (jsTrim bodyUsername)))).1] ∧
      (handleAddAccount env nowTime lastPoll accounts bodyName bodyUsername).persisted =
        some ((accounts ++
          [freshAccount (jsTrim bodyName) (stripLeadAt (jsTrim bodyUsername))]).map
            fun a : Account => (a.name, a.username))) := by
  refine ⟨?_, ?_, ?_, ?_⟩
  · intro h
    rcases h with h | h <;>
      exact ⟨"name, username 값이 필요합니다.", by simp [handleAddAccount, h]⟩
  · intro h1 h2 h3
    exact ⟨"username 형식이 올바르지 않습니다.", by simp [handleAddAccount, h1, h2, h3]⟩
  · intro h1 h2 h3
    refine ⟨"이미 등록된 계정입니다.", ?_⟩
    have h2' := validHandle_ne_empty h2
    have hany : accounts.any
        (fun a => a.usernameKey == jsToLower (stripLeadAt (jsTrim bodyUsername))) = true := by
      rw [List.any_eq_true]
      obtain ⟨a, ha, hk⟩ := h3
      exact ⟨a, ha, by simp [hk]⟩
    simp [handleAddAccount, h1, h2, h2', hany]
  · intro h1 h2 h3
    have h2' := validHandle_ne_empty h2
    have hany : accounts.any
        (fun a => a.usernameKey == jsToLower (stripLeadAt (jsTrim bodyUsername))) = false := by
      rw [← Bool.not_eq_true, List.any_eq_true]
      rintro ⟨a, ha, hk⟩
      exact h3 a ha (by simpa using hk)
    refine ⟨rfl, ?_, ?_, ?_⟩ <;> simp [handleAddAccount, h1, h2, h2', hany]

/-- C6 witness: the created branch at a concrete empty registry and the body
`{name: "SKZ", username: "@Stray_Kids"}`. -/
theorem claim_c6_witness :
    (freshAccount (jsTrim "SKZ") (stripLeadAt (jsTrim "@Stray_Kids"))).initialized = false ∧
    (handleAddAccount envNoToken "S" "L" [] "SKZ" "@Stray_Kids").response =
      .created (serializeAccount (refreshOneAccount envNoToken
        (freshAccount (jsTrim "SKZ") (stripLeadAt (jsTrim "@Stray_Kids")))).1) ∧
    (handleAddAccount envNoToken "S" "L" [] "SKZ" "@Stray_Kids").accounts =
      [] ++ [(refreshOneAccount envNoToken
        (freshAccount (jsTrim "SKZ") (stripLeadAt (jsTrim "@Stray_Kids")))).1] ∧
    (handleAddAccount envNoToken "S" "L" [] "SKZ" "@Stray_Kids").persisted =
      some (([] ++ [freshAccount (jsTrim "SKZ") (stripLeadAt (jsTrim "@Stray_Kids"))]).map
        fun a : Account => (a.name, a.username)) :=
  (claim_c6 envNoToken "S" "L" [] "SKZ" "@Stray_Kids").2.2.2
    (by decide) (by decide) (by simp)

theorem serializeTweetMedia_type (raw : MediaRaw) (m : MediaOut)
    (h : serializeTweetMedia (some raw) = some m) : m.type = raw.type := by
  simp only [serializeTweetMedia] at h
  split at h <;> split at h
  · simp at h
  · rw [Option.some.injEq] at h
    rw [← h]
    simp [jsOr_empty_right]
  · simp at h
  · rw [Option.some.injEq] at h
    rw [← h]
    simp [jsOr_empty_right]

/-- C8: exactly one media strategy is used per post — when the structured
attachment entries yield at least one usable Media, the post's media list is
exactly those entries (in attachment order) and, provided the raw media types
are never the reserved `"external_image"`, contains no `external_image` entry;
only when the structured entries yield nothing are the link entities scanned,
emitting one `external_image` Media per image-extension link in entity order.
The embedded regex accepts `.png/.jpg/.jpeg/.gif/.webp` case-insensitively
with an optional query string. -/
theorem claim_c8 (username : String) (tweet : Tweet)
    (mediaByKey : String → Option MediaRaw) :
    (structuredMedia tweet mediaByKey ≠ [] →
      (serializeTweet username tweet mediaByKey).media = structuredMedia tweet mediaByKey) ∧
    ((∀ k raw, mediaByKey k = some raw → raw.type ≠ "external_image") →
      ∀ m ∈ structuredMedia tweet mediaByKey, m.type ≠ "external_image") ∧
    (structuredMedia tweet mediaByKey = [] →
      (serializeTweet username tweet mediaByKey).media =
        (extractImageLinksFromEntities tweet).map fun link =>
          (⟨"external_image", link, link⟩ : MediaOut)) ∧
    imageRegexTest "https://img.example/pic.jpg?x=1" = true ∧
    imageRegexTest "https://a/b.PNG" = true ∧
    imageRegexTest "https://a/b.webp" = true ∧
    imageRegexTest "https://a/b.jpeg" = true ∧
    imageRegexTest "https://a/b.gif" = true ∧
    imageRegexTest "https://a/b.txt" = false ∧
    imageRegexTest "https://a/b.jpg.html" = false := by
  refine ⟨?_, ?_, ?_, by decide, by decide, by decide, by decide, by decide,
    by decide, by decide⟩
  · intro h
    cases hm : structuredMedia tweet mediaByKey with
    | nil => exact absurd hm h
    | cons x xs => simp [serializeTweet, hm]
  · intro hraw m hm
    unfold structuredMedia at hm
    cases hk : tweet.media_keys with
    | none => rw [hk] at hm; simp at hm
    | some keys =>
      rw [hk] at hm
      rw [List.mem_filterMap] at hm
      obtain ⟨o, ho, hom⟩ := hm
      rw [List.mem_map] at ho
      obtain ⟨key, hkey, rfl⟩ := ho
      cases hmk : mediaByKey key with
      | none => rw [hmk] at hom; simp [serializeTweetMedia] at hom
      | some raw =>
        rw [hmk] at hom
        have htype := serializeTweetMedia_type raw m (by simpa using hom)
        rw [htype]
        exact hraw key raw hmk
  · intro h
    simp [serializeTweet, h]

/-- C8 witness: the fallback branch at a concrete post with no structured
media and one image entity link. -/
theorem claim_c8_witness :
    (serializeTweet "u" tweetPic (fun _ => none)).media =
      (extractImageLinksFromEntities tweetPic).map fun link =>
        (⟨"external_image", link, link⟩ : MediaOut) :=
  (claim_c8 "u" tweetPic (fun _ => none)).2.2.1 (by decide)

/-- C10: the add-account handler normalizes the submitted username by trimming
and stripping one leading `@` before validating, checking duplicates and
storing — every account the handler adds carries the normalized username;
concretely `"@Stray_Kids"` is accepted and stored as `"Stray_Kids"`, and
adding `"@foo"` conflicts with an existing `"foo"` without mutating the
registry. -/
theorem claim_c10 :
    (∀ (env : RefreshEnv) (nowTime lastPoll : String) (accounts : List Account)
        (bodyName bodyUsername : String),
      ∀ a ∈ (handleAddAccount env nowTime lastPoll accounts bodyName
          bodyUsername).accounts,
        a ∈ accounts ∨ a.username = stripLeadAt (jsTrim bodyUsername)) ∧
    (handleAddAccount envNoToken "S" "L" [] "SKZ" "@Stray_Kids").accounts.map
        Account.username = ["Stray_Kids"] ∧
    (handleAddAccount envNoToken "S" "L" [freshAccount "N" "foo"] "X" "@foo").response =
      AddResponse.conflict "이미 등록된 계정입니다." ∧
    (handleAddAccount envNoToken "S" "L" [freshAccount "N" "foo"] "X" "@foo").accounts =
      [freshAccount "N" "foo"] := by
  refine ⟨?_, by decide, by decide, by decide⟩
  intro env nowTime lastPoll accounts bodyName bodyUsername a ha
  simp only [handleAddAccount] at ha
  split at ha
  · exact Or.inl ha
  · split at ha
    · exact Or.inl ha
    · split at ha
      · exact Or.inl ha
      · simp only [List.mem_append, List.mem_singleton] at ha
        rcases ha with ha | ha
        · exact Or.inl ha
        · refine Or.inr ?_
          rw [ha, refreshOneAccount_username]
          rfl

/-- C10 witness: the normalized-storage property applied at the concrete
created account. -/
theorem claim_c10_witness :
    (refreshOneAccount envNoToken (freshAccount "SKZ" "Stray_Kids")).1 ∈
        ([] : List Account) ∨
      (refreshOneAccount envNoToken (freshAccount "SKZ" "Stray_Kids")).1.username =
        stripLeadAt (jsTrim "@Stray_Kids") :=
  claim_c10.1 envNoToken "S" "L" [] "SKZ" "@Stray_Kids"
    (refreshOneAccount envNoToken (freshAccount "SKZ" "Stray_Kids")).1 (by decide)

end XWatcher
